import Mathlib

/-!
Verification of the Doogie hybrid-RAG backend core: document ingestion
(`src/document_processor/processor.py`), hybrid retrieval (`src/rag/retriever.py`)
and the response assembler (`src/core/chat_engine.py`).

Python strings are modelled as `List Char`; Python floats carrying relevance
scores are modelled as exact rationals; Python exceptions are modelled with
`Except String`. External capabilities that live outside the translated
sources (the SQLAlchemy session, the embedding model, the BM25 / vector /
graph indexer singletons, the neural reranker and the Python `re` stdlib
calls that have no counterpart here) are passed in as explicit parameters.
Calls to the global `random` generator are modelled by a stream of draws
`Nat => Rat` that supplies the value of the i-th call.
-/

namespace Doogie

/-- Python string model: a string is its list of characters. -/
abbrev Str := List Char

/-- Python whitespace class, the characters matched by the `\s` regex class
and stripped by `str.strip` / split on by `str.split()`. -/
def isPySpace (c : Char) : Bool :=
  c == ' ' || c == '\t' || c == '\n' || c == '\r' || c == '\x0b' || c == '\x0c'

/-- First occurrence of the pattern `pat` inside `s`: returns the text before
the occurrence and the text after it, or `none` when `pat` does not occur. -/
def splitFirstSub (pat : Str) : Str → Option (Str × Str)
  | [] => if pat.isEmpty then some ([], []) else none
  | c :: rest =>
    if pat.isPrefixOf (c :: rest) then some ([], (c :: rest).drop pat.length)
    else match splitFirstSub pat rest with
      | some (a, b) => some (c :: a, b)
      | none => none

/-- Python `pat in s` substring test. -/
def containsSub (s pat : Str) : Bool := (splitFirstSub pat s).isSome

/-- Fuel-driven worker for `splitOnSub`; the fuel only serves to make the
recursion structural and is always supplied ample for the input. -/
def splitOnAux (sep : Str) : ℕ → Str → List Str
  | 0, s => [s]
  | fuel + 1, s =>
    match splitFirstSub sep s with
    | none => [s]
    | some (a, b) => a :: splitOnAux sep fuel b

/-- Python `s.split(sep)` for a non-empty separator: leftmost non-overlapping
occurrences of `sep` delimit the pieces. -/
def splitOnSub (sep s : Str) : List Str := splitOnAux sep (s.length + 1) s

/-- Concatenate pieces with a separator between them (Python `sep.join`). -/
def joinSep (sep : Str) : List Str → Str
  | [] => []
  | [x] => x
  | x :: xs => x ++ sep ++ joinSep sep xs

/-- Python `s.replace(pat, "")`: delete the leftmost non-overlapping
occurrences of `pat`. -/
def removeOcc (s pat : Str) : Str := joinSep [] (splitOnSub pat s)

/-- Worker for `pySplitWs`, carrying the current (reversed) word. -/
def pySplitWsAux : Str → Str → List Str
  | [], [] => []
  | [], w => [w.reverse]
  | c :: rest, w =>
    if isPySpace c then
      if w.isEmpty then pySplitWsAux rest []
      else w.reverse :: pySplitWsAux rest []
    else pySplitWsAux rest (c :: w)

/-- Python `s.split()` with no argument: split on whitespace runs, dropping
empty pieces. -/
def pySplitWs (s : Str) : List Str := pySplitWsAux s []

/-- Python `words[-k:]` for `k > 0`: the trailing `k` elements. -/
def takeLast {α : Type} (k : ℕ) (l : List α) : List α := l.drop (l.length - k)

/-- Python `s.endswith(pat)`. -/
def endsWithSub (s pat : Str) : Bool := pat.isSuffixOf s

/-- Python `s.strip()`: drop leading and trailing whitespace. -/
def pyStrip (s : Str) : Str :=
  ((s.dropWhile isPySpace).reverse.dropWhile isPySpace).reverse

/-- Decimal rendering of a number used by the Python f-strings. -/
def natStr (n : ℕ) : Str := (Nat.repr n).data

/-- Worker for the sentence-splitting regex, keeping the previously consumed
character so that the lookbehind `(?<=[.!?])` can be evaluated; fuel makes
the recursion structural and is always supplied ample for the input. -/
def reSentenceGo : ℕ → Str → Option Char → Str → List Str
  | _, [], _, acc => [acc.reverse]
  | 0, s, _, acc => [acc.reverse ++ s]
  | fuel + 1, c :: rest, prev, acc =>
    if isPySpace c && (prev == some '.' || prev == some '!' || prev == some '?') then
      acc.reverse :: reSentenceGo fuel (rest.dropWhile isPySpace) (some ' ') []
    else reSentenceGo fuel rest (some c) (c :: acc)

/-- Python re.split on the sentence regex of `chunk_by_sentence` (a lazy
lookbehind for sentence-ending punctuation followed by whitespace): pieces
delimited by maximal whitespace runs immediately preceded by a
sentence-ending punctuation mark. -/
def reSentenceSplit (s : Str) : List Str := reSentenceGo (s.length + 1) s none []

/-! ## Data model (`src/database/models.py`) -/

/-- DocumentStatus enumeration. -/
inductive DocumentStatus where
  | pending | processing | completed | failed
deriving DecidableEq, Repr

/-- DocumentType enumeration. -/
inductive DocumentType where
  | pdf | docx | markdown | rst | text | html | form
deriving DecidableEq, Repr

/-- DocumentSource enumeration. -/
inductive DocumentSource where
  | upload | github | website | manual
deriving DecidableEq, Repr

/-- The fields of a Document row read or written by the ingestion pipeline.
The declared type is an `Option` because the `extract_text` dispatch has an
explicit fallthrough branch for a value outside the recognized enumeration
(Python `document.doc_type` may be `None`). -/
structure PyDoc where
  id : Str
  title : Str
  docType : Option DocumentType
  source : DocumentSource
  filePath : Option Str
  url : Option Str
  metaData : List (Str × Str)
deriving DecidableEq, Repr

/-- A DocumentChunk row as created by `process_document`: content, ordinal
index, the metadata pair `{position, total_chunks}` and the embedding
artifact reference filled in after the embedding succeeds. -/
structure ChunkRec where
  documentId : Str
  content : Str
  chunkIndex : ℕ
  metaPosition : ℕ
  metaTotalChunks : ℕ
  embeddingFile : Option Str
deriving DecidableEq, Repr

/-- Python dict update `m[k] = v` on a JSON object modelled as an
insertion-ordered association list. -/
def upsert : List (Str × Str) → Str → Str → List (Str × Str)
  | [], k, v => [(k, v)]
  | (k', v') :: rest, k, v =>
    if k' = k then (k, v) :: rest else (k', v') :: upsert rest k v

/-- Python dict lookup `m.get(k)`. -/
def lookupKey : List (Str × Str) → Str → Option Str
  | [], _ => none
  | (k', v') :: rest, k => if k' = k then some v' else lookupKey rest k

/-! ## Text extraction (`processor.py`, `extract_text`) -/

/-- The placeholder text returned by the `extract_text` fallthrough branch
for an unrecognized document type (Python renders the missing enum value as
`None` inside the f-string). -/
def unknownTypeText : Str :=
  "Unknown document type: None. Unable to extract text.".data

/-- Translation of `extract_text`. The per-type extractor bodies perform file
and network reads, so they are supplied as a capability
`extractors : DocumentType -> Except String Str`; `fileExists` stands for
`os.path.exists(document.file_path)`. A missing backing file raises before
the try block; every error raised inside the dispatch is caught and turned
into placeholder text, and an unrecognized type yields placeholder text
without raising. -/
def extract_text (doc : PyDoc) (fileExists : Bool)
    (extractors : DocumentType → Except Str Str) : Except Str Str :=
  if (doc.source = .upload ∨ doc.source = .github) ∧ doc.filePath.isSome ∧ ¬fileExists then
    .error ("Document file not found: ".data ++ doc.filePath.getD [])
  else
    match doc.docType with
    | some t =>
      match extractors t with
      | .ok s => .ok s
      | .error e => .ok ("Error extracting text: ".data ++ e)
    | none => .ok unknownTypeText

/-! ## Chunking (`processor.py`, `chunk_text` and helpers) -/

/-- Shared chunk-closing step: append the current chunk and seed the next one
with the trailing `overlap / 5` words of the closed chunk. -/
def closeChunk (chunks : List Str) (current : Str) (overlap : ℕ) :
    List Str × Str :=
  let chunks := chunks ++ [current]
  let words := pySplitWs current
  let ow := min words.length (overlap / 5)
  let current := if 0 < ow then joinSep [' '] (takeLast ow words) else []
  (chunks, current)

/-- The paragraph separator used throughout `chunk_by_paragraph`. -/
def nl2 : Str := ['\n', '\n']

/-- One unit (a paragraph, or a sentence chunk of an oversized paragraph)
appended to the running chunk state inside `chunk_by_paragraph`. -/
def paraStep (chunk_size overlap : ℕ) (st : List Str × Str) (piece : Str) :
    List Str × Str :=
  let (chunks, current) := st
  let (chunks, current) :=
    if chunk_size < current.length + piece.length ∧ ¬current.isEmpty then
      let (cs, cur) := closeChunk chunks current overlap
      (cs, if ¬cur.isEmpty ∧ ¬endsWithSub cur nl2 then cur ++ nl2 else cur)
    else (chunks, current)
  let current :=
    if ¬current.isEmpty ∧ ¬endsWithSub current nl2 then current ++ nl2 else current
  (chunks, current ++ piece)

/-- State of the word-level inner loop of `chunk_by_sentence`: emitted chunks,
the current chunk and the current sentence chunk. -/
def sentWordStep (chunk_size : ℕ) (st : List Str × Str × Str) (word : Str) :
    List Str × Str × Str :=
  let (chunks, current, csc) := st
  if chunk_size < csc.length + word.length + 1 then
    let chunks := if ¬current.isEmpty then chunks ++ [current] else chunks
    (chunks, csc, word)
  else
    (chunks, current, (if ¬csc.isEmpty then csc ++ [' '] else csc) ++ word)

/-- One sentence appended to the running chunk state inside
`chunk_by_sentence`; an oversized sentence is split into words first. -/
def sentStep (chunk_size overlap : ℕ) (st : List Str × Str) (sentence : Str) :
    List Str × Str :=
  let (chunks, current) := st
  if chunk_size < sentence.length then
    let words := pySplitWs sentence
    let (chunks, current, csc) := words.foldl (sentWordStep chunk_size) (chunks, current, [])
    if ¬csc.isEmpty then
      if chunk_size < current.length + csc.length then (chunks ++ [current], csc)
      else (chunks, (if ¬current.isEmpty then current ++ [' '] else current) ++ csc)
    else (chunks, current)
  else
    let (chunks, current) :=
      if chunk_size < current.length + sentence.length + 1 ∧ ¬current.isEmpty then
        closeChunk chunks current overlap
      else (chunks, current)
    (chunks, (if ¬current.isEmpty then current ++ [' '] else current) ++ sentence)

/-- Translation of `chunk_by_sentence`. -/
def chunk_by_sentence (chunk_size overlap : ℕ) (text : Str) : List Str :=
  let sentences := reSentenceSplit text
  let (chunks, current) := sentences.foldl (sentStep chunk_size overlap) ([], [])
  if ¬current.isEmpty then chunks ++ [current] else chunks

/-- Translation of `chunk_by_paragraph`. -/
def chunk_by_paragraph (chunk_size overlap : ℕ) (text : Str) : List Str :=
  let paragraphs := splitOnSub nl2 text
  let step := fun st para =>
    if chunk_size < (para : Str).length then
      (chunk_by_sentence chunk_size overlap para).foldl (paraStep chunk_size overlap) st
    else paraStep chunk_size overlap st para
  let (chunks, current) := paragraphs.foldl step ([], [])
  if ¬current.isEmpty then chunks ++ [current] else chunks

/-- The stride-2 recombination loop of `chunk_by_heading`, gluing each split
piece to the one that follows it. -/
def recombinePairs : List Str → List Str
  | [] => []
  | [a] => [a]
  | a :: b :: rest => (a ++ b) :: recombinePairs rest

/-- Translation of `chunk_by_heading`. The heading split
`re.split(f"(?m)^({heading_pattern})", text)` is a Python `re` stdlib call
and is supplied as the capability `headingSplit`; the recombination of the
returned pieces and the per-section size dispatch are translated from the
source. -/
def chunk_by_heading (headingSplit : Str → List Str) (chunk_size overlap : ℕ)
    (text : Str) : List Str :=
  let sections := headingSplit text
  let sectionsWithHeadings := recombinePairs sections
  sectionsWithHeadings.foldl
    (fun acc sec =>
      if sec.length ≤ chunk_size then acc ++ [sec]
      else acc ++ chunk_by_paragraph chunk_size overlap sec) []

/-- Prepend the page header onto the first produced chunk
(`page_chunks[0] = f"{page_header}{page_chunks[0]}"`). -/
def prependHead (h : Str) : List Str → List Str
  | [] => []
  | c :: cs => (h ++ c) :: cs

/-- Translation of `chunk_by_page_then_paragraph`. -/
def chunk_by_page_then_paragraph (chunk_size overlap : ℕ) (text : Str) : List Str :=
  let pages := splitOnSub "--- Page ".data text
  pages.foldl
    (fun acc page =>
      if page.isEmpty then acc
      else
        match splitFirstSub " ---".data page with
        | some (pageNum, pageContent) =>
          let pageHeader := "--- Page ".data ++ pageNum ++ " ---".data
          if pageContent.length ≤ chunk_size then acc ++ [pageHeader ++ pageContent]
          else acc ++ prependHead pageHeader (chunk_by_paragraph chunk_size overlap pageContent)
        | none =>
          if page.length ≤ chunk_size then acc ++ [page]
          else acc ++ chunk_by_paragraph chunk_size overlap page) []

/-- Translation of `chunk_text`: a text no longer than `chunk_size` is a
single chunk, otherwise a strategy is chosen by document type. -/
def chunk_text (headingSplit : Str → List Str) (text : Str)
    (doc_type : Option DocumentType) (chunk_size overlap : ℕ) : List Str :=
  if text.length ≤ chunk_size then [text]
  else
    match doc_type with
    | some .markdown => chunk_by_heading headingSplit chunk_size overlap text
    | some .rst => chunk_by_heading headingSplit chunk_size overlap text
    | some .pdf => chunk_by_page_then_paragraph chunk_size overlap text
    | _ => chunk_by_paragraph chunk_size overlap text

/-! ## Ingestion (`processor.py`, `process_document`) -/

/-- The observable outcome of `process_document`: the final document status,
the final document metadata and the chunk rows committed to the database. -/
structure ProcOutcome where
  status : DocumentStatus
  metaData : List (Str × Str)
  chunks : List ChunkRec
deriving Repr

/-- The per-chunk loop of `process_document`: each chunk row is committed
with a `none` embedding reference, the embedding is computed, and on success
the `embedding_file` path (derived from the database-assigned chunk id,
supplied by `newId`) is committed. A failing embedding leaves the failing
chunk committed without an embedding reference and aborts the loop with the
raised message. -/
def processChunks (embed : Str → Except Str (List ℚ)) (newId : ℕ → Str)
    (documentId : Str) (total : ℕ) : List Str → ℕ → List ChunkRec × Option Str
  | [], _ => ([], none)
  | t :: rest, i =>
    let base : ChunkRec :=
      { documentId := documentId, content := t, chunkIndex := i,
        metaPosition := i, metaTotalChunks := total, embeddingFile := none }
    match embed t with
    | .error e => ([base], some e)
    | .ok _ =>
      let file := "data/embeddings/".data ++ documentId ++ "/".data ++ newId i ++ ".npy".data
      let r := processChunks embed newId documentId total rest (i + 1)
      ({ base with embeddingFile := some file } :: r.1, r.2)

/-- Translation of `process_document` for an existing document: extract,
chunk, embed chunk by chunk, then set the status to COMPLETED, or on any
raised error set the status to FAILED and record the message under the
`error` metadata key. -/
def process_document (doc : PyDoc) (fileExists : Bool)
    (extractors : DocumentType → Except Str Str) (newId : ℕ → Str)
    (embed : Str → Except Str (List ℚ)) (headingSplit : Str → List Str) :
    ProcOutcome :=
  match extract_text doc fileExists extractors with
  | .error e =>
    { status := .failed, metaData := upsert doc.metaData "error".data e, chunks := [] }
  | .ok text =>
    let texts := chunk_text headingSplit text doc.docType 1000 200
    let r := processChunks embed newId doc.id texts.length texts 0
    match r.2 with
    | none => { status := .completed, metaData := doc.metaData, chunks := r.1 }
    | some e =>
      { status := .failed, metaData := upsert doc.metaData "error".data e, chunks := r.1 }

/-! ## Hybrid retrieval (`src/rag/retriever.py`)

The BM25 indexer, vector search, graph RAG and neural reranker singletons are
separate modules of the repository that are not part of the translated
sources; their outputs enter as parameters (for each index: the result list
of the first search and the result list of the retry after the lazy
reindex). Relevance scores drawn from `random.uniform` are modelled by
streams `Nat => Rat` supplying the i-th draw of the enclosing call. -/

/-- A retrieval result dict. The fusion step of `hybrid_search` writes a
`sources` key distinct from the `source` key every result is created with;
`sources` models that extra key (`none` when absent). -/
structure RResult where
  id : Str
  content : Str
  documentId : Str
  title : Str
  relevance : ℚ
  source : Str
  sources : Option Str := none
deriving DecidableEq, Repr

/-- A DocumentChunk row as read by `_mock_retrieve`, with the title of its
parent document. -/
structure ChunkRow where
  id : Str
  content : Str
  documentId : Str
  title : Str
deriving DecidableEq, Repr

/-- Python `query.split()[0] if query.split() else dflt`. -/
def firstWordOr (q dflt : Str) : Str :=
  match pySplitWs q with
  | [] => dflt
  | w :: _ => w

/-- The fabricated result list of the final fallback of `_mock_retrieve`. -/
def mockRetrieveList (q : Str) (rel : ℕ → ℚ) (limit : ℕ) : List RResult :=
  (List.range limit).map fun i =>
    { id := "mock-chunk-".data ++ natStr i
      content := "This is mock content related to ".data ++ q ++
        ". It contains information about ".data ++ firstWordOr q "topics".data ++
        " and other related concepts.".data
      documentId := "mock-doc-".data ++ natStr i
      title := "Mock Document ".data ++ natStr i
      relevance := rel i
      source := "mock".data }

/-- The database branch of `_mock_retrieve`: existing chunk rows dressed up
as results, with a fresh random relevance per row. -/
def mockFromChunks : List ChunkRow → (ℕ → ℚ) → ℕ → List RResult
  | [], _, _ => []
  | c :: rest, rel, i =>
    { id := c.id, content := c.content, documentId := c.documentId,
      title := c.title, relevance := rel i, source := "database".data } ::
      mockFromChunks rest rel (i + 1)

/-- Translation of `_mock_retrieve`: up to `limit` stored chunks when any
exist, otherwise `limit` fabricated placeholder results. -/
def mock_retrieve (q : Str) (dbChunks : List ChunkRow) (rel : ℕ → ℚ)
    (limit : ℕ) : List RResult :=
  let chunks := dbChunks.take limit
  if ¬chunks.isEmpty then mockFromChunks chunks rel 0
  else mockRetrieveList q rel limit

/-- The fabricated result list of the BM25 search fallback. -/
def mockBm25List (q : Str) (rel : ℕ → ℚ) (limit : ℕ) : List RResult :=
  (List.range limit).map fun i =>
    { id := "mock-chunk-bm25-".data ++ natStr i
      content := "This is a BM25 result for ".data ++ q ++
        ". It contains keywords like ".data ++ firstWordOr q "example".data ++
        " and other related terms.".data
      documentId := "mock-doc-".data ++ natStr i
      title := "Mock BM25 Document ".data ++ natStr i
      relevance := rel i
      source := "bm25".data }

/-- The fabricated result list of the vector search fallback. -/
def mockVectorList (q : Str) (rel : ℕ → ℚ) (limit : ℕ) : List RResult :=
  (List.range limit).map fun i =>
    { id := "mock-chunk-vector-".data ++ natStr i
      content := "This is a vector search result for ".data ++ q ++
        ". It is semantically similar to the query and discusses ".data ++
        firstWordOr q "concepts".data ++ " in depth.".data
      documentId := "mock-doc-".data ++ natStr i
      title := "Mock Vector Document ".data ++ natStr i
      relevance := rel i
      source := "vector".data }

/-- The fabricated result list of the graph search fallback. -/
def mockGraphList (q : Str) (rel : ℕ → ℚ) (limit : ℕ) : List RResult :=
  (List.range limit).map fun i =>
    { id := "mock-chunk-graph-".data ++ natStr i
      content := "This is a graph search result for ".data ++ q ++
        ". It is connected to concepts related to ".data ++
        firstWordOr q "topics".data ++ " through the knowledge graph.".data
      documentId := "mock-doc-".data ++ natStr i
      title := "Mock Graph Document ".data ++ natStr i
      relevance := rel i
      source := "graph".data }

/-- Translation of `bm25_search`: the indexer result, retried once after a
lazy reindex when it was empty and documents exist, with the fabricated mock
list as final fallback. -/
def bm25_search (q : Str) (docCount : ℕ) (indexFirst indexRetry : List RResult)
    (rel : ℕ → ℚ) (limit : ℕ) : List RResult :=
  let results := indexFirst
  let results := if results.isEmpty ∧ 0 < docCount then indexRetry else results
  if results.isEmpty then mockBm25List q rel limit else results

/-- Translation of `vector_search`: the query embedding is computed first and
a raised `EmbeddingError` propagates; the search logic then mirrors
`bm25_search`. -/
def vector_search (q : Str) (queryEmbedding : Except Str (List ℚ)) (docCount : ℕ)
    (indexFirst indexRetry : List RResult) (rel : ℕ → ℚ) (limit : ℕ) :
    Except Str (List RResult) :=
  match queryEmbedding with
  | .error e => .error e
  | .ok _ =>
    let results := indexFirst
    let results := if results.isEmpty ∧ 0 < docCount then indexRetry else results
    .ok (if results.isEmpty then mockVectorList q rel limit else results)

/-- Translation of `graph_search`: the graph RAG result, retried once after
the graph is rebuilt when it was empty and documents exist, with the
fabricated mock list as final fallback. -/
def graph_search (q : Str) (docCount : ℕ) (indexFirst indexRetry : List RResult)
    (rel : ℕ → ℚ) (limit : ℕ) : List RResult :=
  let results := indexFirst
  let results := if results.isEmpty ∧ 0 < docCount then indexRetry else results
  if results.isEmpty then mockGraphList q rel limit else results

/-- First loop of the fusion in `hybrid_search`: insert each BM25 result by
id into the ordered dict, a repeated id replacing the stored value. -/
def insertReplaceById (acc : List RResult) (r : RResult) : List RResult :=
  if acc.any (fun a => a.id == r.id) then
    acc.map fun a => if a.id == r.id then r else a
  else acc ++ [r]

/-- Second loop of the fusion in `hybrid_search`: an id already present gets
its relevance replaced by the mean of the stored and incoming scores and a
`sources = "hybrid"` key; a new id is appended unchanged. -/
def fuseAvgById (acc : List RResult) (r : RResult) : List RResult :=
  if acc.any (fun a => a.id == r.id) then
    acc.map fun a =>
      if a.id == r.id then
        { a with relevance := (a.relevance + r.relevance) / 2,
                 sources := some "hybrid".data }
      else a
  else acc ++ [r]

/-- Stable insert of the descending insertion sort `pySortByRelevanceDesc`. -/
def insertDesc (x : RResult) : List RResult → List RResult
  | [] => [x]
  | y :: ys => if x.relevance < y.relevance then y :: insertDesc x ys else x :: y :: ys

/-- Model of the Python in-place sort by the relevance key with reverse set:
a stable sort by relevance descending (equal scores keep their original
order, exactly as the Python stable sort with a reversed comparison). -/
def pySortByRelevanceDesc : List RResult → List RResult
  | [] => []
  | x :: xs => insertDesc x (pySortByRelevanceDesc xs)

/-- The index-search inputs and external capabilities consumed by one
`retrieve_context` call. -/
structure RetrieverEnv where
  docCount : ℕ
  bm25First : List RResult
  bm25Retry : List RResult
  queryEmbedding : Except Str (List ℚ)
  vecFirst : List RResult
  vecRetry : List RResult
  graphFirst : List RResult
  graphRetry : List RResult
  relBM : ℕ → ℚ
  relVec : ℕ → ℚ
  relGraph : ℕ → ℚ
  relMock : ℕ → ℚ
  dbChunks : List ChunkRow
  rerank : Str → List RResult → ℕ → List RResult

/-- Translation of `hybrid_search`: BM25 and vector results fused by id,
sorted by relevance descending, truncated to `limit`. -/
def hybrid_search (q : Str) (env : RetrieverEnv) (limit : ℕ) :
    Except Str (List RResult) :=
  let bm25Results := bm25_search q env.docCount env.bm25First env.bm25Retry env.relBM limit
  match vector_search q env.queryEmbedding env.docCount env.vecFirst env.vecRetry
      env.relVec limit with
  | .error e => .error e
  | .ok vectorResults =>
    let combined := vectorResults.foldl fuseAvgById (bm25Results.foldl insertReplaceById [])
    .ok ((pySortByRelevanceDesc combined).take limit)

/-- Translation of `neural_rerank`: the reranker output is returned as-is
when non-empty; an empty reranker output falls back to the original results
sorted by their existing relevance, truncated to `limit`. The reranker
itself is a separate module supplied as the capability `rerank`. -/
def neural_rerank (q : Str) (results : List RResult)
    (rerank : Str → List RResult → ℕ → List RResult) (limit : ℕ) : List RResult :=
  let rr := rerank q results limit
  if rr.isEmpty then (pySortByRelevanceDesc results).take limit else rr

/-- The graph-merge loop of `retrieve_context`: append graph results whose id
is not already present. -/
def mergeNewIds (results newResults : List RResult) : List RResult :=
  newResults.foldl
    (fun acc r => if acc.any (fun a => a.id == r.id) then acc else acc ++ [r]) results

/-- Translation of `retrieve_context`: empty corpus short-circuits to the
mock retrieval; otherwise hybrid search (with `limit * 2`) and graph search
results are gathered, an empty gathering falls back to the mock retrieval,
and the final set is reranked or sorted and truncated to `limit`. -/
def retrieve_context (q : Str) (env : RetrieverEnv) (limit : ℕ)
    (useHybrid useGraph useReranking : Bool) : Except Str (List RResult) :=
  if env.docCount = 0 then .ok (mock_retrieve q env.dbChunks env.relMock limit)
  else
    match (if useHybrid then hybrid_search q env (limit * 2) else .ok []) with
    | .error e => .error e
    | .ok hres =>
      let results := hres
      let results :=
        if useGraph then
          mergeNewIds results
            (graph_search q env.docCount env.graphFirst env.graphRetry env.relGraph limit)
        else results
      if results.isEmpty then .ok (mock_retrieve q env.dbChunks env.relMock limit)
      else if useReranking then .ok (neural_rerank q results env.rerank limit)
      else .ok ((pySortByRelevanceDesc results).take limit)

/-! ## Response assembler (`src/core/chat_engine.py`) -/

/-- One increment produced by the streaming LLM connector:
`{content, tokens}`. -/
structure StreamChunk where
  content : Str
  tokens : ℕ
deriving DecidableEq, Repr

/-- The typed events emitted by `_stream_response`. -/
inductive SEvent where
  | thinking (thinking : Str)
  | chunk (content : Str)
  | complete (content : Str) (thinking : Option Str) (tokens : ℕ)
      (citations : Option (List (Str × Str)))
deriving DecidableEq, Repr

/-- The mutable local state of `_stream_response`, with the emitted events
accumulated alongside. -/
structure StreamState where
  thinkingBuffer : Str
  contentBuffer : Str
  inThinking : Bool
  tokens : ℕ
  events : List SEvent
deriving Repr

/-- The opening thinking marker. -/
def thinkOpen : Str := "<think>".data

/-- The closing thinking marker. -/
def thinkClose : Str := "</think>".data

/-- Python `int(n * 1.3)`, the placeholder token estimate from a word count
(exact in the decimals, which agrees with the float computation on the small
counts exercised here). -/
def tokenEstimate (wordCount : ℕ) : ℕ := wordCount * 13 / 10

/-- The per-increment body of the `async for` loop of `_stream_response`:
marker containment flips the thinking flag and strips the marker text, a
closing marker additionally emits a thinking event with the buffer as
accumulated so far, and the remaining text goes to the buffer selected by
the flag, emitting a thinking or chunk event. -/
def stream_step (st : StreamState) (ck : StreamChunk) : StreamState :=
  let tokens := st.tokens + ck.tokens
  let text := ck.content
  let inTText :=
    if containsSub text thinkOpen then (true, removeOcc text thinkOpen)
    else (st.inThinking, text)
  let inTTextEvs :=
    if containsSub inTText.2 thinkClose then
      (false, removeOcc inTText.2 thinkClose, [SEvent.thinking st.thinkingBuffer])
    else (inTText.1, inTText.2, ([] : List SEvent))
  let inT := inTTextEvs.1
  let text := inTTextEvs.2.1
  let evs := inTTextEvs.2.2
  if inT then
    { thinkingBuffer := st.thinkingBuffer ++ text, contentBuffer := st.contentBuffer,
      inThinking := inT, tokens := tokens,
      events := st.events ++ evs ++ [SEvent.thinking (st.thinkingBuffer ++ text)] }
  else
    { thinkingBuffer := st.thinkingBuffer, contentBuffer := st.contentBuffer ++ text,
      inThinking := inT, tokens := tokens,
      events := st.events ++ evs ++ [SEvent.chunk text] }

/-- Translation of `_stream_response`: fold the connector increments through
`stream_step`, then emit the terminal complete event carrying the content
buffer, the thinking buffer (or `None` when empty), the token count (an
estimate from the content word count when the connector reported none) and
the citations derived from the context documents (or `None` when there are
none). -/
def stream_response (chunks : List StreamChunk) (contextDocs : List RResult) :
    List SEvent :=
  let st := chunks.foldl stream_step ⟨[], [], false, 0, []⟩
  let toks :=
    if st.tokens = 0 then tokenEstimate (pySplitWs st.contentBuffer).length
    else st.tokens
  st.events ++
    [SEvent.complete st.contentBuffer
      (if st.thinkingBuffer.isEmpty then none else some st.thinkingBuffer) toks
      (if contextDocs.isEmpty then none
       else some (contextDocs.map fun d => (d.id, d.title)))]

/-- Python re.search of the lazy thinking-block pattern under DOTALL, group
one: the text between the first opening marker and the first closing marker
after it (the leftmost match of the lazy pattern; `none` when there is no
match). -/
def reSearchThink (s : Str) : Option Str :=
  match splitFirstSub thinkOpen s with
  | none => none
  | some (_, rest) =>
    match splitFirstSub thinkClose rest with
    | none => none
    | some (g, _) => some g

/-- Fuel-driven worker for `removeThinks`; the fuel only makes the recursion
structural and `removeThinks` always supplies ample fuel (each removed block
consumes at least the two markers). -/
def removeThinksFuel : ℕ → Str → Str
  | 0, s => s
  | fuel + 1, s =>
    match splitFirstSub thinkOpen s with
    | none => s
    | some (a, rest) =>
      match splitFirstSub thinkClose rest with
      | none => s
      | some (_, post) => a ++ removeThinksFuel fuel post

/-- Python re.sub of the lazy thinking-block pattern under DOTALL with an
empty replacement: delete every non-overlapping lazy match, scanning left to
right. -/
def removeThinks (s : Str) : Str := removeThinksFuel s.length s

/-- The `(content, thinking, tokens)` triple returned by
`_generate_response`. -/
structure GenResult where
  content : Str
  thinking : Option Str
  tokens : ℕ
deriving DecidableEq, Repr

/-- Translation of `_generate_response` on the connector reply
`{content = respContent, tokens = respTokens}` (a missing token report is
`0`, Python falsy): the first thinking block is extracted and stripped, all
thinking blocks are deleted from the content, and a missing token report is
replaced by the word-count estimate. -/
def generate_response (respContent : Str) (respTokens : ℕ) : GenResult :=
  match reSearchThink respContent with
  | some g =>
    let content := pyStrip (removeThinks respContent)
    { content := content, thinking := some (pyStrip g),
      tokens := if respTokens = 0 then tokenEstimate (pySplitWs content).length
                else respTokens }
  | none =>
    { content := respContent, thinking := none,
      tokens := if respTokens = 0 then tokenEstimate (pySplitWs respContent).length
                else respTokens }

/-! ## Concrete instances used in the evaluation theorems -/

/-- Erase the relevance score of a result, keeping every other field; used
to state determinism of the mock retrieval up to the random scores. -/
def eraseRel (r : RResult) : RResult := { r with relevance := 0 }

/-- A retriever environment with an empty corpus, empty index outputs and
constant-zero random draws. -/
def envBase : RetrieverEnv :=
  { docCount := 0, bm25First := [], bm25Retry := [], queryEmbedding := .ok [],
    vecFirst := [], vecRetry := [], graphFirst := [], graphRetry := [],
    relBM := fun _ => 0, relVec := fun _ => 0, relGraph := fun _ => 0,
    relMock := fun _ => 0, dbChunks := [], rerank := fun _ _ _ => [] }

/-- A lexical hit with score 0.6, as in the fusion example of the spec. -/
def lexHitC3 : RResult :=
  { id := "c1".data, content := "alpha".data, documentId := "d1".data,
    title := "Doc 1".data, relevance := 3/5, source := "bm25".data }

/-- A vector hit with the same identity and score 0.8. -/
def vecHitC3 : RResult :=
  { id := "c1".data, content := "alpha".data, documentId := "d1".data,
    title := "Doc 1".data, relevance := 4/5, source := "vector".data }

/-- An environment whose BM25 index returns the lexical hit and whose vector
index returns the vector hit. -/
def envC3 : RetrieverEnv :=
  { envBase with docCount := 1, bm25First := [lexHitC3], vecFirst := [vecHitC3] }

/-- An empty-corpus environment whose mock relevance draws are all 0.7. -/
def envC9A : RetrieverEnv := { envBase with relMock := fun _ => 7/10 }

/-- An empty-corpus environment whose mock relevance draws are all 0.8,
modelling the advanced state of the global random generator at a second
invocation. -/
def envC9B : RetrieverEnv := { envBase with relMock := fun _ => 4/5 }

/-- A document whose declared type is outside the recognized enumeration. -/
def docC2 : PyDoc :=
  { id := "doc-1".data, title := "T".data, docType := none, source := .manual,
    filePath := none, url := none, metaData := [] }

/-- An uploaded plain-text document whose backing file is referenced by
path. -/
def docC1 : PyDoc :=
  { id := "doc-2".data, title := "U".data, docType := some .text,
    source := .upload, filePath := some "f".data, url := none, metaData := [] }

/-- Extractors that succeed with empty text for every type. -/
def extractorsOk : DocumentType → Except Str Str := fun _ => .ok []

/-- An embedding capability that always succeeds. -/
def embedOk : Str → Except Str (List ℚ) := fun _ => .ok [0]

/-- Database-assigned chunk ids, rendered from the ordinal. -/
def newIdSeq : ℕ → Str := natStr

/-- A trivial heading split capability. -/
def headingSplitId : Str → List Str := fun s => [s]

/-- A single result used to exercise the reranker fallback. -/
def rDemo : RResult :=
  { id := "c9".data, content := "x".data, documentId := "d".data,
    title := "t".data, relevance := 1/2, source := "bm25".data }

/-- A model stream delivering a whole thinking block and the answer inside
one increment. -/
def streamInputC5 : List StreamChunk := [⟨"<think>hi</think>yo".data, 0⟩]

/-- The fused result produced for the two hits above: mean relevance, the
`source` field untouched, the extra `sources` key set to `hybrid`. -/
def fusedC3 : RResult :=
  { lexHitC3 with relevance := ((3 : ℚ)/5 + 4/5) / 2, sources := some "hybrid".data }

/-! ## Theorems -/

/-- Claim C7: for every text, document type, maximum size and overlap with
the text no longer than the maximum size, the chunker returns exactly the
single-element sequence holding the text. -/
theorem chunk_text_single_chunk (hs : Str → List Str) (text : Str)
    (dt : Option DocumentType) (chunk_size overlap : ℕ)
    (h : text.length ≤ chunk_size) :
    chunk_text hs text dt chunk_size overlap = [text] := by
  unfold chunk_text
  rw [if_pos h]

/-- Witness for claim C7 at a concrete two-character text and size 5. -/
theorem chunk_text_single_chunk_witness :
    ("ab".data : Str).length ≤ 5 ∧ chunk_text headingSplitId "ab".data none 5 2 = ["ab".data] :=
  ⟨by decide, chunk_text_single_chunk headingSplitId "ab".data none 5 2 (by decide)⟩

/-- Claim C3, evaluated on the example of the spec: fusing a lexical hit of
score 0.6 and a vector hit of score 0.8 with the same identity produces
exactly one result whose relevance is the mean 0.7, but the provenance field
`source` of the fused result still holds the lexical tag `bm25`; the value
`hybrid` is written to a separate `sources` key that nothing reads. -/
theorem hybrid_search_fusion_example :
    hybrid_search "q".data envC3 10 = .ok [fusedC3]
    ∧ fusedC3.relevance = 7/10
    ∧ fusedC3.source = "bm25".data
    ∧ fusedC3.sources = some "hybrid".data
    ∧ "bm25".data ≠ "hybrid".data :=
  ⟨rfl, by norm_num [fusedC3, lexHitC3], rfl, rfl, by decide⟩

/-- Claim C5, evaluated at the failing input: when a single stream increment
carries the whole text `<think>hi</think>yo`, the assembler emits a thinking
event whose accumulated thinking text is empty (never `hi`), routes `hiyo`
(including the thinking text) to the answer, and the terminal complete event
carries content `hiyo` with no thinking — not content `yo`. -/
theorem stream_response_single_chunk_leak :
    stream_response streamInputC5 [] =
      [SEvent.thinking [], SEvent.chunk "hiyo".data,
       SEvent.complete "hiyo".data none 1 none]
    ∧ "hiyo".data ≠ "yo".data :=
  ⟨rfl, by decide⟩

/-- Counterexample to claim C2: processing a document of unrecognized type
does not fail — extraction returns placeholder text without raising, the
placeholder is chunked and embedded, the status becomes COMPLETED and no
error reason is recorded in the metadata. -/
theorem process_document_unknown_type_completes :
    (process_document docC2 true extractorsOk newIdSeq embedOk headingSplitId).status = .completed
    ∧ lookupKey (process_document docC2 true extractorsOk newIdSeq embedOk headingSplitId).metaData
        "error".data = none
    ∧ extract_text docC2 true extractorsOk = .ok unknownTypeText :=
  ⟨rfl, rfl, rfl⟩

/-- Counterexample to claim C6: a BM25 search that finds nothing (empty
indexer output before and after the lazy reindex) returns a non-empty list
of fabricated mock entries, not an empty result sequence. -/
theorem bm25_search_fabricates_results :
    bm25_search "q".data 0 [] [] (fun _ => (7 : ℚ)/10) 1 ≠ []
    ∧ (bm25_search "q".data 0 [] [] (fun _ => (7 : ℚ)/10) 1).map (fun r => r.id) =
        ["mock-chunk-bm25-0".data] :=
  ⟨by decide, by decide⟩

/-- Claim C6 as amended: a search finding no entries never raises, but
instead of an empty sequence it returns the fabricated mock list of length
`limit`; only a non-empty index output is passed through unchanged. -/
theorem search_empty_fallback (q : Str) (docCount : ℕ) (rel : ℕ → ℚ)
    (limit : ℕ) (indexFirst indexRetry : List RResult) (emb : List ℚ) :
    (indexFirst = [] → indexRetry = [] →
      bm25_search q docCount indexFirst indexRetry rel limit = mockBm25List q rel limit
      ∧ vector_search q (.ok emb) docCount indexFirst indexRetry rel limit =
          .ok (mockVectorList q rel limit)
      ∧ graph_search q docCount indexFirst indexRetry rel limit = mockGraphList q rel limit
      ∧ (mockBm25List q rel limit).length = limit
      ∧ (mockVectorList q rel limit).length = limit
      ∧ (mockGraphList q rel limit).length = limit)
    ∧ (indexFirst ≠ [] →
      bm25_search q docCount indexFirst indexRetry rel limit = indexFirst
      ∧ vector_search q (.ok emb) docCount indexFirst indexRetry rel limit = .ok indexFirst
      ∧ graph_search q docCount indexFirst indexRetry rel limit = indexFirst) := by
  constructor
  · intro hf hr
    subst hf
    subst hr
    refine ⟨?_, ?_, ?_, ?_, ?_, ?_⟩
    · simp [bm25_search, ite_self]
    · simp [vector_search, ite_self]
    · simp [graph_search, ite_self]
    · simp [mockBm25List]
    · simp [mockVectorList]
    · simp [mockGraphList]
  · intro hf
    rcases indexFirst with _ | ⟨a, as⟩
    · exact absurd rfl hf
    · exact ⟨by simp [bm25_search], by simp [vector_search], by simp [graph_search]⟩

/-- Witness for the amended claim C6 at a concrete empty index output and
limit 2. -/
theorem search_empty_fallback_witness :
    bm25_search "q".data 0 [] [] (fun _ => (1 : ℚ)/2) 2 =
      mockBm25List "q".data (fun _ => (1 : ℚ)/2) 2
    ∧ (mockBm25List "q".data (fun _ => (1 : ℚ)/2) 2).length = 2 :=
  ⟨((search_empty_fallback "q".data 0 (fun _ => (1 : ℚ)/2) 2 [] [] []).1 rfl rfl).1,
   ((search_empty_fallback "q".data 0 (fun _ => (1 : ℚ)/2) 2 [] [] []).1 rfl rfl).2.2.2.1⟩

/-- Inserting with `insertDesc` is a permutation of consing. -/
theorem insertDesc_perm (x : RResult) (l : List RResult) :
    (insertDesc x l).Perm (x :: l) := by
  induction l with
  | nil => exact List.Perm.refl _
  | cons y ys ih =>
    unfold insertDesc
    by_cases h : x.relevance < y.relevance
    · rw [if_pos h]
      exact (ih.cons y).trans (List.Perm.swap x y ys)
    · rw [if_neg h]

/-- The descending insertion sort is a permutation of its input. -/
theorem pySortDesc_perm (l : List RResult) :
    (pySortByRelevanceDesc l).Perm l := by
  induction l with
  | nil => exact List.Perm.refl _
  | cons x xs ih => exact (insertDesc_perm x _).trans (ih.cons x)

/-- Inserting with `insertDesc` preserves descending sortedness. -/
theorem pairwise_insertDesc (x : RResult) (l : List RResult)
    (h : l.Pairwise (fun a b => b.relevance ≤ a.relevance)) :
    (insertDesc x l).Pairwise (fun a b => b.relevance ≤ a.relevance) := by
  induction l with
  | nil => simp [insertDesc]
  | cons y ys ih =>
    rw [List.pairwise_cons] at h
    obtain ⟨hy, hys⟩ := h
    unfold insertDesc
    by_cases hc : x.relevance < y.relevance
    · rw [if_pos hc]
      rw [List.pairwise_cons]
      refine ⟨?_, ih hys⟩
      intro z hz
      rcases List.mem_cons.mp ((insertDesc_perm x ys).mem_iff.mp hz) with rfl | hm
      · exact le_of_lt hc
      · exact hy z hm
    · rw [if_neg hc]
      push_neg at hc
      rw [List.pairwise_cons]
      refine ⟨?_, List.pairwise_cons.mpr ⟨hy, hys⟩⟩
      intro z hz
      rcases List.mem_cons.mp hz with rfl | hm
      · exact hc
      · exact le_trans (hy z hm) hc

/-- The descending insertion sort sorts by relevance descending. -/
theorem pySortDesc_sorted (l : List RResult) :
    (pySortByRelevanceDesc l).Pairwise (fun a b => b.relevance ≤ a.relevance) := by
  induction l with
  | nil => simp [pySortByRelevanceDesc]
  | cons x xs ih => exact pairwise_insertDesc x _ ih

/-- Claim C8: when the reranker returns empty output (its behavior on a
failing or empty scoring capability), `neural_rerank` falls back to the
candidates sorted by their existing relevance descending and truncated to
`limit`; for a non-empty candidate set and positive limit the returned set
is non-empty — no results are discarded by the failure. -/
theorem neural_rerank_empty_fallback (q : Str) (results : List RResult)
    (rk : Str → List RResult → ℕ → List RResult) (limit : ℕ)
    (h1 : rk q results limit = []) (h2 : results ≠ []) (h3 : 0 < limit) :
    neural_rerank q results rk limit = (pySortByRelevanceDesc results).take limit
    ∧ neural_rerank q results rk limit ≠ []
    ∧ (neural_rerank q results rk limit).Pairwise
        (fun a b => b.relevance ≤ a.relevance) := by
  have he : neural_rerank q results rk limit =
      (pySortByRelevanceDesc results).take limit := by
    simp [neural_rerank, h1]
  refine ⟨he, ?_, ?_⟩
  · rw [he]
    intro hnil
    have hlen := congrArg List.length hnil
    rw [List.length_take, (pySortDesc_perm results).length_eq] at hlen
    rcases Nat.min_eq_zero_iff.mp hlen with h | h
    · omega
    · exact h2 (List.length_eq_zero.mp h)
  · rw [he]
    exact List.Pairwise.sublist (List.take_sublist _ _) (pySortDesc_sorted results)

/-- Witness for claim C8 at a one-candidate set and limit 1. -/
theorem neural_rerank_empty_fallback_witness :
    neural_rerank "q".data [rDemo] (fun _ _ _ => []) 1 ≠ [] :=
  (neural_rerank_empty_fallback "q".data [rDemo] (fun _ _ _ => []) 1 rfl
    (by decide) (by decide)).2.1

/-- The database branch of the mock retrieval produces one result per chunk
row. -/
theorem mockFromChunks_length (cs : List ChunkRow) (rel : ℕ → ℚ) :
    ∀ i, (mockFromChunks cs rel i).length = cs.length := by
  induction cs with
  | nil => intro i; rfl
  | cons c rest ih => intro i; simp [mockFromChunks, ih]

/-- The mock retrieval never returns more than `limit` results. -/
theorem mock_retrieve_length_le (q : Str) (cs : List ChunkRow) (rel : ℕ → ℚ)
    (limit : ℕ) : (mock_retrieve q cs rel limit).length ≤ limit := by
  by_cases h : (cs.take limit).isEmpty
  · simp [mock_retrieve, h, mockRetrieveList]
  · simp only [mock_retrieve, h, Bool.not_eq_true, not_false_eq_true, if_true,
      Bool.false_eq_true, if_false]
    rw [mockFromChunks_length]
    exact List.length_take_le _ _

/-- The reranking step never returns more than `limit` results, given the
reranker capability respects its contract. -/
theorem neural_rerank_length_le (q : Str) (results : List RResult)
    (rk : Str → List RResult → ℕ → List RResult) (limit : ℕ)
    (hk : (rk q results limit).length ≤ limit) :
    (neural_rerank q results rk limit).length ≤ limit := by
  by_cases h : (rk q results limit).isEmpty
  · have he : neural_rerank q results rk limit =
        (pySortByRelevanceDesc results).take limit := by
      simp [neural_rerank, h]
    rw [he]
    exact List.length_take_le _ _
  · have he : neural_rerank q results rk limit = rk q results limit := by
      simp [neural_rerank, h]
    rw [he]
    exact hk

/-- Claim C4: for every query, limit and flag combination, a successful
`retrieve_context` call returns at most `limit` results (the reranker, a
separate module, is assumed to honor its contract of returning at most
`limit` results), and an empty corpus yields a result set rather than a
raised error. -/
theorem retrieve_context_bounded (q : Str) (env : RetrieverEnv) (limit : ℕ)
    (uh ug ur : Bool)
    (hr : ∀ (q2 : Str) (rs : List RResult) (l : ℕ), (env.rerank q2 rs l).length ≤ l) :
    (∀ rs, retrieve_context q env limit uh ug ur = .ok rs → rs.length ≤ limit)
    ∧ (env.docCount = 0 → ∃ rs, retrieve_context q env limit uh ug ur = .ok rs) := by
  constructor
  · intro rs hok
    have key : ∀ res : List RResult,
        (if res.isEmpty then Except.ok (mock_retrieve q env.dbChunks env.relMock limit)
         else if ur then Except.ok (neural_rerank q res env.rerank limit)
         else Except.ok ((pySortByRelevanceDesc res).take limit)) =
          (Except.ok rs : Except Str (List RResult)) →
        rs.length ≤ limit := by
      intro res hok2
      split at hok2
      · obtain rfl := Except.ok.inj hok2
        exact mock_retrieve_length_le _ _ _ _
      · split at hok2
        · obtain rfl := Except.ok.inj hok2
          exact neural_rerank_length_le _ _ _ _ (hr _ _ _)
        · obtain rfl := Except.ok.inj hok2
          exact List.length_take_le _ _
    unfold retrieve_context at hok
    by_cases h0 : env.docCount = 0
    · rw [if_pos h0] at hok
      obtain rfl := Except.ok.inj hok
      exact mock_retrieve_length_le _ _ _ _
    · rw [if_neg h0] at hok
      rcases hE : (if uh then hybrid_search q env (limit * 2) else Except.ok []) with e | hlist
      · rw [hE] at hok
        exact absurd hok (by simp)
      · rw [hE] at hok
        simp only at hok
        split at hok
        · exact key _ hok
        · exact key _ hok
  · intro h0
    refine ⟨mock_retrieve q env.dbChunks env.relMock limit, ?_⟩
    unfold retrieve_context
    rw [if_pos h0]

/-- Witness for claim C4 on the empty environment, whose reranker returns
the empty list and so trivially honors the length contract. -/
theorem retrieve_context_bounded_witness :
    ∃ rs, retrieve_context "q".data envBase 5 true true true = .ok rs :=
  (retrieve_context_bounded "q".data envBase 5 true true true
    (fun _ _ _ => Nat.zero_le _)).2 rfl

/-- Counterexample to claim C9: with an empty corpus, two retrieval
invocations with the same query and limit that differ only in the state of
the global random generator return different placeholder result sets. -/
theorem retrieve_context_empty_corpus_random :
    retrieve_context "q".data envC9A 1 true true true ≠
      retrieve_context "q".data envC9B 1 true true true := by
  intro h
  have hAB : mockRetrieveList "q".data (fun _ => (7 : ℚ)/10) 1 =
      mockRetrieveList "q".data (fun _ => (4 : ℚ)/5) 1 := Except.ok.inj h
  have h2 : [(7 : ℚ)/10] = [(4 : ℚ)/5] :=
    congrArg (List.map RResult.relevance) hAB
  have h3 : (7 : ℚ)/10 = (4 : ℚ)/5 := by injection h2
  norm_num at h3

/-- Map of `eraseRel` over the database branch is independent of the random
draws. -/
theorem map_eraseRel_mockFromChunks (cs : List ChunkRow) (r1 r2 : ℕ → ℚ) :
    ∀ i, (mockFromChunks cs r1 i).map eraseRel = (mockFromChunks cs r2 i).map eraseRel := by
  induction cs with
  | nil => intro i; rfl
  | cons c rest ih =>
    intro i
    simp only [mockFromChunks, List.map_cons, ih]
    rfl

/-- Map of `eraseRel` over the fabricated placeholder list is independent of
the random draws. -/
theorem map_eraseRel_mockRetrieveList (q : Str) (r1 r2 : ℕ → ℚ) (limit : ℕ) :
    (mockRetrieveList q r1 limit).map eraseRel =
      (mockRetrieveList q r2 limit).map eraseRel := by
  simp only [mockRetrieveList, List.map_map]
  exact List.map_congr_left fun i _ => rfl

/-- Map of `eraseRel` over the mock retrieval is independent of the random
draws. -/
theorem map_eraseRel_mock_retrieve (q : Str) (cs : List ChunkRow)
    (r1 r2 : ℕ → ℚ) (limit : ℕ) :
    (mock_retrieve q cs r1 limit).map eraseRel =
      (mock_retrieve q cs r2 limit).map eraseRel := by
  unfold mock_retrieve
  by_cases h : (cs.take limit).isEmpty
  · simp only [h]
    exact map_eraseRel_mockRetrieveList q r1 r2 limit
  · simp only [h]
    exact map_eraseRel_mockFromChunks _ r1 r2 0

/-- Claim C9 as amended: with an empty corpus, two retrieval invocations
with the same query and limit return placeholder result sets that agree on
every field except the relevance scores, which are drawn from the random
generator. -/
theorem retrieve_context_empty_corpus_det (q : Str) (env1 env2 : RetrieverEnv)
    (limit : ℕ) (uh ug ur : Bool)
    (h1 : env1.docCount = 0) (h2 : env2.docCount = 0)
    (hc : env1.dbChunks = env2.dbChunks) :
    ∃ rs1 rs2,
      retrieve_context q env1 limit uh ug ur = .ok rs1
      ∧ retrieve_context q env2 limit uh ug ur = .ok rs2
      ∧ rs1.map eraseRel = rs2.map eraseRel := by
  refine ⟨mock_retrieve q env1.dbChunks env1.relMock limit,
          mock_retrieve q env2.dbChunks env2.relMock limit, ?_, ?_, ?_⟩
  · unfold retrieve_context
    rw [if_pos h1]
  · unfold retrieve_context
    rw [if_pos h2]
  · rw [hc]
    exact map_eraseRel_mock_retrieve q env2.dbChunks env1.relMock env2.relMock limit

/-- Witness for the amended claim C9 at the two concrete empty-corpus
environments. -/
theorem retrieve_context_empty_corpus_det_witness :
    ∃ rs1 rs2,
      retrieve_context "q".data envC9A 1 true true true = .ok rs1
      ∧ retrieve_context "q".data envC9B 1 true true true = .ok rs2
      ∧ rs1.map eraseRel = rs2.map eraseRel :=
  retrieve_context_empty_corpus_det "q".data envC9A envC9B 1 true true true rfl rfl rfl

/-- Looking up the key just written by `upsert` yields the written value. -/
theorem lookup_upsert (m : List (Str × Str)) (k v : Str) :
    lookupKey (upsert m k v) k = some v := by
  induction m with
  | nil => simp [upsert, lookupKey]
  | cons p rest ih =>
    obtain ⟨k', v'⟩ := p
    unfold upsert
    by_cases h : k' = k
    · rw [if_pos h]
      simp [lookupKey]
    · rw [if_neg h]
      simp only [lookupKey, if_neg h]
      exact ih

/-- When the chunk loop finishes with no error, every committed chunk
carries an embedding artifact reference. -/
theorem processChunks_embedded (embed : Str → Except Str (List ℚ))
    (nid : ℕ → Str) (did : Str) (total : ℕ) (texts : List Str) :
    ∀ i, (processChunks embed nid did total texts i).2 = none →
      ∀ c ∈ (processChunks embed nid did total texts i).1, c.embeddingFile.isSome := by
  induction texts with
  | nil =>
    intro i h c hc
    simp [processChunks] at hc
  | cons t rest ih =>
    intro i h c hc
    cases he : embed t with
    | error e =>
      rw [processChunks] at h
      simp [he] at h
    | ok v =>
      rw [processChunks] at hc h
      simp only [he] at hc h
      rcases List.mem_cons.mp hc with rfl | hm
      · rfl
      · exact ih (i + 1) h c hm

/-- When some chunk text fails to embed, the chunk loop aborts with an
error. -/
theorem processChunks_fails (embed : Str → Except Str (List ℚ))
    (nid : ℕ → Str) (did : Str) (total : ℕ) (texts : List Str) :
    ∀ i, (∃ t ∈ texts, ∃ m, embed t = .error m) →
      (processChunks embed nid did total texts i).2.isSome := by
  induction texts with
  | nil =>
    intro i h
    simp at h
  | cons t rest ih =>
    intro i h
    obtain ⟨u, hu, m, hm⟩ := h
    cases he : embed t with
    | error e =>
      rw [processChunks]
      simp [he]
    | ok v =>
      rw [processChunks]
      simp only [he]
      rcases List.mem_cons.mp hu with rfl | hmem
      · rw [he] at hm
        exact absurd hm (by simp)
      · exact ih (i + 1) ⟨u, hmem, m, hm⟩

/-- Claim C1: the document status becomes COMPLETED only when every chunk
created for the document carries a non-null embedding artifact reference,
and an unrecoverable error raised by extraction (a missing backing file) or
by embedding sets the status to FAILED with the error reason recorded under
the `error` metadata key. -/
theorem process_document_status_invariant (doc : PyDoc) (fe : Bool)
    (extr : DocumentType → Except Str Str) (nid : ℕ → Str)
    (embed : Str → Except Str (List ℚ)) (hs : Str → List Str) :
    ((process_document doc fe extr nid embed hs).status = .completed →
      ∀ c ∈ (process_document doc fe extr nid embed hs).chunks, c.embeddingFile.isSome)
    ∧ (∀ msg, extract_text doc fe extr = .error msg →
        (process_document doc fe extr nid embed hs).status = .failed
        ∧ lookupKey (process_document doc fe extr nid embed hs).metaData "error".data =
            some msg)
    ∧ (∀ t, extract_text doc fe extr = .ok t →
        (∃ c ∈ chunk_text hs t doc.docType 1000 200, ∃ m, embed c = .error m) →
        (process_document doc fe extr nid embed hs).status = .failed
        ∧ (lookupKey (process_document doc fe extr nid embed hs).metaData
            "error".data).isSome) := by
  cases hx : extract_text doc fe extr with
  | error e =>
    refine ⟨?_, ?_, ?_⟩
    · intro hc
      simp [process_document, hx] at hc
    · intro msg hmsg
      obtain rfl := Except.error.inj hmsg
      constructor
      · simp [process_document, hx]
      · simp [process_document, hx, lookup_upsert]
    · intro t ht
      exact absurd ht (by simp)
  | ok text =>
    refine ⟨?_, ?_, ?_⟩
    · intro hc c hmem
      cases h2 : (processChunks embed nid doc.id
          (chunk_text hs text doc.docType 1000 200).length
          (chunk_text hs text doc.docType 1000 200) 0).2 with
      | none =>
        simp only [process_document, hx, h2] at hmem
        exact processChunks_embedded embed nid doc.id _ _ 0 h2 c hmem
      | some e =>
        simp [process_document, hx, h2] at hc
    · intro msg hmsg
      exact absurd hmsg (by simp)
    · intro t ht hfail
      obtain rfl := Except.ok.inj ht
      have hsome := processChunks_fails embed nid doc.id
        (chunk_text hs text doc.docType 1000 200).length
        (chunk_text hs text doc.docType 1000 200) 0 hfail
      obtain ⟨e, he2⟩ := Option.isSome_iff_exists.mp hsome
      constructor
      · simp [process_document, hx, he2]
      · simp [process_document, hx, he2, lookup_upsert]

/-- Witness for claim C1: an uploaded document whose backing file is missing
ends FAILED with the file-not-found reason recorded. -/
theorem process_document_status_invariant_witness :
    (process_document docC1 false extractorsOk newIdSeq embedOk headingSplitId).status = .failed
    ∧ lookupKey (process_document docC1 false extractorsOk newIdSeq embedOk headingSplitId).metaData
        "error".data = some ("Document file not found: ".data ++ "f".data) :=
  (process_document_status_invariant docC1 false extractorsOk newIdSeq embedOk
    headingSplitId).2.1 ("Document file not found: ".data ++ "f".data) rfl

/-- Claim C2 as amended: a document whose declared type is outside the
recognized enumeration does not fail ingestion — extraction returns the
placeholder text `Unknown document type: None. Unable to extract text.`
without raising, processing continues, and when embedding succeeds the
status is set to COMPLETED with the metadata left unchanged (no error
reason recorded). -/
theorem process_document_unknown_type_ok (doc : PyDoc) (fe : Bool)
    (extr : DocumentType → Except Str Str) (nid : ℕ → Str)
    (embed : Str → Except Str (List ℚ)) (hs : Str → List Str)
    (hdt : doc.docType = none) (h1 : doc.source ≠ .upload)
    (h2 : doc.source ≠ .github) (hemb : ∀ s, ∃ v, embed s = .ok v) :
    extract_text doc fe extr = .ok unknownTypeText
    ∧ (process_document doc fe extr nid embed hs).status = .completed
    ∧ (process_document doc fe extr nid embed hs).metaData = doc.metaData := by
  have hcond : ¬((doc.source = .upload ∨ doc.source = .github)
      ∧ doc.filePath.isSome ∧ ¬fe) := by
    rintro ⟨h | h, -⟩
    · exact h1 h
    · exact h2 h
  have hx : extract_text doc fe extr = .ok unknownTypeText := by
    unfold extract_text
    rw [if_neg hcond, hdt]
  have hct : chunk_text hs unknownTypeText doc.docType 1000 200 = [unknownTypeText] := by
    unfold chunk_text
    rw [if_pos (show unknownTypeText.length ≤ 1000 by decide)]
  obtain ⟨v, hv⟩ := hemb unknownTypeText
  have h2none : (processChunks embed nid doc.id 1 [unknownTypeText] 0).2 = none := by
    simp [processChunks, hv]
  refine ⟨hx, ?_, ?_⟩
  · simp [process_document, hx, hct, h2none]
  · simp [process_document, hx, hct, h2none]

/-- Witness for the amended claim C2 at the concrete unrecognized-type
document. -/
theorem process_document_unknown_type_ok_witness :
    extract_text docC2 true extractorsOk = .ok unknownTypeText
    ∧ (process_document docC2 true extractorsOk newIdSeq embedOk headingSplitId).status =
        .completed :=
  ⟨(process_document_unknown_type_ok docC2 true extractorsOk newIdSeq embedOk
      headingSplitId rfl (by decide) (by decide) (fun s => ⟨[0], rfl⟩)).1,
   (process_document_unknown_type_ok docC2 true extractorsOk newIdSeq embedOk
      headingSplitId rfl (by decide) (by decide) (fun s => ⟨[0], rfl⟩)).2.1⟩

/-- A pattern beginning with the marker character finds no occurrence inside
marker-character-free text. -/
theorem splitFirst_none_of_free (p : Str) (s : Str) (h : ∀ c ∈ s, c ≠ '<') :
    splitFirstSub ('<' :: p) s = none := by
  induction s with
  | nil => rfl
  | cons c rest ih =>
    have hc : c ≠ '<' := h c (List.mem_cons_self _ _)
    have hbeq : (('<' : Char) == c) = false := beq_eq_false_iff_ne.mpr (Ne.symm hc)
    have hpre : (('<' :: p).isPrefixOf (c :: rest)) = false := by
      simp [List.isPrefixOf, hbeq]
    have ihr : splitFirstSub ('<' :: p) rest = none :=
      ih fun x hx => h x (List.mem_cons_of_mem _ hx)
    simp [splitFirstSub, hpre, ihr]

/-- Scanning step of `splitFirstSub` past a head character where the
pattern does not match. -/
theorem splitFirstSub_cons_neg (pat : Str) (c : Char) (rest : Str)
    (h : pat.isPrefixOf (c :: rest) = false) :
    splitFirstSub pat (c :: rest) =
      match splitFirstSub pat rest with
      | some (a, b) => some (c :: a, b)
      | none => none := by
  rw [splitFirstSub, h]
  simp

/-- A list always starts with itself in the `isPrefixOf` sense. -/
theorem isPrefixOf_append_self (l t : Str) : l.isPrefixOf (l ++ t) = true := by
  induction l with
  | nil => simp [List.isPrefixOf]
  | cons c cs ih => simp [List.isPrefixOf, ih]

/-- The first occurrence of a marker-headed pattern in
`pre ++ pat ++ rest` with `pre` marker-character-free is at the junction. -/
theorem splitFirst_at_marker (p : Str) (pre rest : Str)
    (h : ∀ c ∈ pre, c ≠ '<') :
    splitFirstSub ('<' :: p) (pre ++ ('<' :: p) ++ rest) = some (pre, rest) := by
  induction pre with
  | nil =>
    have hpre : (('<' :: p).isPrefixOf (('<' :: p) ++ rest)) = true :=
      isPrefixOf_append_self _ _
    rw [List.nil_append]
    rcases hcons : ('<' :: p) ++ rest with _ | ⟨c, tail⟩
    · simp at hcons
    · rw [splitFirstSub, ← hcons, hpre]
      simp [List.drop_left]
  | cons c pre' ih =>
    have hc : c ≠ '<' := h c (List.mem_cons_self _ _)
    have hbeq : (('<' : Char) == c) = false := beq_eq_false_iff_ne.mpr (Ne.symm hc)
    have hpre : (('<' :: p).isPrefixOf (c :: (pre' ++ ('<' :: p) ++ rest))) = false := by
      simp [List.isPrefixOf, hbeq]
    have ihr := ih fun x hx => h x (List.mem_cons_of_mem _ hx)
    have hshape : (c :: pre') ++ ('<' :: p) ++ rest = c :: (pre' ++ ('<' :: p) ++ rest) := by
      simp
    rw [hshape, splitFirstSub_cons_neg _ _ _ hpre, ihr]

/-- The lazy search of the first thinking block: first opening marker, then
first closing marker after it. -/
theorem reSearchThink_blocks (pre A rest : Str)
    (hpre : ∀ c ∈ pre, c ≠ '<') (hA : ∀ c ∈ A, c ≠ '<') :
    reSearchThink (pre ++ thinkOpen ++ (A ++ thinkClose ++ rest)) = some A := by
  have h1 : splitFirstSub thinkOpen (pre ++ thinkOpen ++ (A ++ thinkClose ++ rest)) =
      some (pre, A ++ thinkClose ++ rest) :=
    splitFirst_at_marker "think>".data pre (A ++ thinkClose ++ rest) hpre
  have h2 : splitFirstSub thinkClose (A ++ thinkClose ++ rest) = some (A, rest) :=
    splitFirst_at_marker "/think>".data A rest hA
  simp only [reSearchThink, h1, h2]

/-- Marker-free text passes through the block remover unchanged, whatever
the fuel. -/
theorem removeThinksFuel_free (fuel : ℕ) (s : Str) (h : ∀ c ∈ s, c ≠ '<') :
    removeThinksFuel fuel s = s := by
  cases fuel with
  | zero => rfl
  | succ n =>
    have hn : splitFirstSub thinkOpen s = none :=
      splitFirst_none_of_free "think>".data s h
    simp [removeThinksFuel, hn]

/-- Removing the blocks of a two-block text with marker-free segments keeps
exactly the text outside the blocks. -/
theorem removeThinksFuel_two (n : ℕ) (pre A mid C post : Str)
    (h1 : ∀ c ∈ pre, c ≠ '<') (h2 : ∀ c ∈ A, c ≠ '<')
    (h3 : ∀ c ∈ mid, c ≠ '<') (h4 : ∀ c ∈ C, c ≠ '<')
    (h5 : ∀ c ∈ post, c ≠ '<') :
    removeThinksFuel (n + 2)
      (pre ++ thinkOpen ++ (A ++ thinkClose ++ (mid ++ thinkOpen ++ (C ++ thinkClose ++ post))))
      = pre ++ (mid ++ post) := by
  have o1 : splitFirstSub thinkOpen
      (pre ++ thinkOpen ++ (A ++ thinkClose ++ (mid ++ thinkOpen ++ (C ++ thinkClose ++ post)))) =
      some (pre, A ++ thinkClose ++ (mid ++ thinkOpen ++ (C ++ thinkClose ++ post))) :=
    splitFirst_at_marker "think>".data pre _ h1
  have c1 : splitFirstSub thinkClose
      (A ++ thinkClose ++ (mid ++ thinkOpen ++ (C ++ thinkClose ++ post))) =
      some (A, mid ++ thinkOpen ++ (C ++ thinkClose ++ post)) :=
    splitFirst_at_marker "/think>".data A _ h2
  have o2 : splitFirstSub thinkOpen (mid ++ thinkOpen ++ (C ++ thinkClose ++ post)) =
      some (mid, C ++ thinkClose ++ post) :=
    splitFirst_at_marker "think>".data mid _ h3
  have c2 : splitFirstSub thinkClose (C ++ thinkClose ++ post) = some (C, post) :=
    splitFirst_at_marker "/think>".data C post h4
  show removeThinksFuel (n + 1 + 1) _ = _
  simp only [removeThinksFuel, o1, c1, o2, c2, removeThinksFuel_free n post h5]

/-- Claim C10: in batch response generation, a model output holding two
thinking blocks yields the stripped contents of the first block as the
thinking component, while both blocks are deleted from the answer content —
the second block text reaches neither output. -/
theorem generate_response_first_block (pre A mid C post : Str) (tks : ℕ)
    (h1 : ∀ c ∈ pre, c ≠ '<') (h2 : ∀ c ∈ A, c ≠ '<')
    (h3 : ∀ c ∈ mid, c ≠ '<') (h4 : ∀ c ∈ C, c ≠ '<')
    (h5 : ∀ c ∈ post, c ≠ '<') :
    (generate_response
      (pre ++ thinkOpen ++ (A ++ thinkClose ++ (mid ++ thinkOpen ++ (C ++ thinkClose ++ post))))
      tks).thinking = some (pyStrip A)
    ∧ (generate_response
      (pre ++ thinkOpen ++ (A ++ thinkClose ++ (mid ++ thinkOpen ++ (C ++ thinkClose ++ post))))
      tks).content = pyStrip (pre ++ (mid ++ post)) := by
  have hsearch : reSearchThink
      (pre ++ thinkOpen ++ (A ++ thinkClose ++ (mid ++ thinkOpen ++ (C ++ thinkClose ++ post)))) =
      some A :=
    reSearchThink_blocks pre A _ h1 h2
  have hlen : ∃ k,
      (pre ++ thinkOpen ++ (A ++ thinkClose ++ (mid ++ thinkOpen ++ (C ++ thinkClose ++ post)))).length
      = k + 2 := by
    refine ⟨(pre ++ thinkOpen ++ (A ++ thinkClose ++ (mid ++ thinkOpen ++ (C ++ thinkClose ++ post)))).length - 2, ?_⟩
    simp only [List.length_append, thinkOpen, thinkClose, List.length_cons,
      List.length_nil]
    omega
  obtain ⟨k, hk⟩ := hlen
  have hrem : removeThinks
      (pre ++ thinkOpen ++ (A ++ thinkClose ++ (mid ++ thinkOpen ++ (C ++ thinkClose ++ post)))) =
      pre ++ (mid ++ post) := by
    unfold removeThinks
    rw [hk]
    exact removeThinksFuel_two k pre A mid C post h1 h2 h3 h4 h5
  constructor
  · simp only [generate_response, hsearch]
  · simp only [generate_response, hsearch, hrem]

/-- Witness for claim C10 at two concrete thinking blocks. -/
theorem generate_response_first_block_witness :
    (generate_response
      ("x ".data ++ thinkOpen ++ ("aa".data ++ thinkClose ++
        ("y".data ++ thinkOpen ++ ("zz".data ++ thinkClose ++ " w".data)))) 5).thinking =
      some (pyStrip "aa".data)
    ∧ (generate_response
      ("x ".data ++ thinkOpen ++ ("aa".data ++ thinkClose ++
        ("y".data ++ thinkOpen ++ ("zz".data ++ thinkClose ++ " w".data)))) 5).content =
      pyStrip ("x ".data ++ ("y".data ++ " w".data)) :=
  generate_response_first_block "x ".data "aa".data "y".data "zz".data " w".data 5
    (by decide) (by decide) (by decide) (by decide) (by decide)

end Doogie
